import Mathlib

/-!
Shallow embedding of the deploy-flake deployment tool (Rust), covering:
destination-specifier parsing (src/lib.rs, `Destination::from_str` over the
`url` crate), the boot activation protocol (`SystemConfiguration::boot_config`),
the per-destination deploy pipeline and its copy-retry policy (src/main.rs,
`deploy` and `main`), and the NixOS operating-system adapter
(src/os/nixos.rs: `strip_shell_output`, `Nixos::hostname`,
`Nixos::preflight_check_closure`, `Nixos::build_flake`).

Remote effects (ssh commands, file probes) are modelled by explicit oracles
recording each call's outcome; each operation returns the list of calls it
issued (its trace) together with its success value, so ordering and
failure-abort properties become statements about traces.
-/

namespace DeployFlake

/-! ### Fragment of the `url` crate used by `Destination::from_str`

`Destination::from_str` (src/lib.rs:240) consults `Url::parse` only through
`url.scheme()`, `url.host_str()`, `url.path()` and `url.username()`.  We embed
the fragment of WHATWG url parsing that is exercised by destination
specifiers: an ASCII scheme followed by `:`, an optional `//authority`
(userinfo split at the last `@`; an empty host in a non-special URL yields
`host_str() = None`), and the remaining path.  Query/fragment separators and
percent-encoding are outside the fragment (no destination specifier uses
them). -/

structure UrlParts where
  scheme : String
  host : Option String
  path : String
  username : String
deriving DecidableEq

/-- Characters allowed after the first character of a URL scheme. -/
def isSchemeChar (c : Char) : Bool :=
  c.isAlphanum || c = '+' || c = '-' || c = '.'

/-- Scan the rest of a scheme; succeeds at the terminating colon. -/
def takeScheme (acc : List Char) : List Char → Option (List Char × List Char)
  | [] => none
  | c :: rest =>
    if c = ':' then some (acc.reverse, rest)
    else if isSchemeChar c then takeScheme (c :: acc) rest
    else none

/-- Parse a URL scheme (first char ASCII alpha, then scheme chars, then `:`). -/
def parseScheme : List Char → Option (List Char × List Char)
  | [] => none
  | c :: rest => if c.isAlpha then takeScheme [c] rest else none

/-- Split an authority-and-beyond string at the first `/`: authority, rest. -/
def splitAuthority : List Char → List Char × List Char
  | [] => ([], [])
  | c :: rest =>
    if c = '/' then ([], c :: rest)
    else
      let p := splitAuthority rest
      (c :: p.1, p.2)

/-- Split an authority at the last `@` into userinfo and host. -/
def splitUserinfo (auth : List Char) : List Char × List Char :=
  if auth.contains '@' then
    let rhost := auth.reverse.takeWhile (fun c => c ≠ '@')
    (auth.take (auth.length - rhost.length - 1), rhost.reverse)
  else ([], auth)

/-- Embedding of `url::Url::parse` restricted to the fragment described above:
returns the scheme (lowercased), `host_str()`, `path()` and `username()` of
the parsed URL, or `none` when parsing fails (no scheme, or a userinfo with an
empty host). -/
def urlParse (s : String) : Option UrlParts :=
  match parseScheme s.toList with
  | none => none
  | some (schemeChars, rest) =>
    let scheme := String.mk (schemeChars.map Char.toLower)
    match rest with
    | '/' :: '/' :: rest2 =>
      let ap := splitAuthority rest2
      let uh := splitUserinfo ap.1
      if uh.2 = [] then
        if uh.1 = [] then
          some { scheme := scheme, host := none, path := String.mk ap.2, username := "" }
        else none
      else
        some { scheme := scheme, host := some (String.mk uh.2),
               path := String.mk ap.2, username := String.mk uh.1 }
    | _ => some { scheme := scheme, host := none, path := String.mk rest, username := "" }

/-! ### `Destination` and its `FromStr` instance (src/lib.rs:230-269) -/

/-- The kind of operating system we deploy to (src/lib.rs:194). -/
inductive Flavor
  | nixos
deriving DecidableEq

structure Destination where
  os_flavor : Flavor
  hostname : String
  config_name : Option String
deriving DecidableEq

/-- Embedding of Rust `str::strip_prefix('/')`. -/
def stripLeadingSlash (p : String) : Option String :=
  match p.toList with
  | '/' :: rest => some (String.mk rest)
  | _ => none

/-- Embedding of `Destination::from_str` (src/lib.rs:240-268): if the input
parses as a URL, accept only scheme `nixos` with a present host, forming the
hostname from `username@host` when a username is present and taking the
config name from the path with its leading slash stripped, dropped when
empty; any other parsed URL is an error.  A string that is not a URL is taken
verbatim as a bare hostname. -/
def Destination.from_str (s : String) : Except String Destination :=
  match urlParse s with
  | some url =>
    if url.scheme = "nixos" then
      match url.host with
      | some host =>
        let hostname := if url.username = "" then host else url.username ++ "@" ++ host
        Except.ok { os_flavor := Flavor.nixos, hostname := hostname,
                    config_name :=
                      Option.filter (fun p => ¬ p.isEmpty) (stripLeadingSlash url.path) }
      | none => Except.error ("Unable to parse " ++ s)
    else Except.error ("Unable to parse " ++ s)
  | none =>
    Except.ok { os_flavor := Flavor.nixos, hostname := s, config_name := none }

/-! ### `build_flake` result selection (src/os/nixos.rs:240-249) -/

structure NixOutput where
  out : String
deriving DecidableEq

structure NixBuildResult where
  drv_path : String
  outputs : NixOutput
deriving DecidableEq

/-- Embedding of the tail of `Nixos::build_flake` (src/os/nixos.rs:240-249):
given the structured (`--json`) build records, require exactly one record and
return its output path together with the resolved system name; any other
record count is an error. -/
def build_flake_select (results : List NixBuildResult) (hostname : String) :
    Except String (String × String) :=
  match results with
  | [r] => Except.ok (r.outputs.out, hostname)
  | _ => Except.error "Did not receive the required number of results"

/-! ### `strip_shell_output` and `Nixos::hostname` (src/os/nixos.rs:27-78)

`strip_shell_output` indexes `output.stdout[len - 1]` unconditionally; on an
empty stdout this is an out-of-bounds access, i.e. a panic.  The embedding
returns `none` exactly where the Rust function panics.  Stdout is a byte
list; the newline byte is 10. -/

def strip_shell_output (stdout : List Nat) : Option (List Nat) :=
  match stdout.getLast? with
  | none => none
  | some b => if b = 10 then some stdout.dropLast else some stdout

/-- Embedding of `Nixos::hostname` (src/os/nixos.rs:64-78): run the remote
`hostname` command; a non-success exit status is an error; otherwise the
output is passed to `strip_shell_output`.  The outer `Option` is `none`
exactly where the Rust code panics. -/
def hostnameRun (statusOk : Bool) (stdout : List Nat) :
    Option (Except String (List Nat)) :=
  if statusOk = false then some (Except.error "Could not query for hostname")
  else Option.map Except.ok (strip_shell_output stdout)

/-! ### Boot activation protocol (`SystemConfiguration::boot_config`, src/lib.rs:141-159)

The three remote calls are modelled by oracles: `updateBootOk n` is the exit
success of the n-th `update_boot_for_config` invocation of this run and
`setGenOk` that of `set_as_current_generation`.  `boot_config` returns the
ordered list of remote calls it issued and its overall success. -/

inductive BootEvent
  | updateBoot
  | setGen
deriving DecidableEq

structure BootEnv where
  updateBootOk : Nat → Bool
  setGenOk : Bool

/-- Embedding of `SystemConfiguration::boot_config` (src/lib.rs:141-159):
trial `update_boot_for_config`, then `set_as_current_generation`, then the
committing `update_boot_for_config`, each `?`-propagating its failure so the
later calls are skipped. -/
def boot_config (env : BootEnv) : List BootEvent × Bool :=
  if env.updateBootOk 0 = false then ([BootEvent.updateBoot], false)
  else if env.setGenOk = false then ([BootEvent.updateBoot, BootEvent.setGen], false)
  else ([BootEvent.updateBoot, BootEvent.setGen, BootEvent.updateBoot], env.updateBootOk 1)

/-! ### Copy retry policy and the per-destination pipeline (src/main.rs:158-211)

Each attempt of `timeout(copy_timeout, flake.copy_closure(..))` either
times out (`Err(Elapsed)`, the retried error of `backon`), completes with a
hard failure (`Ok(Err(_))`, a success for the retry combinator, propagated by
the inner `?`), or succeeds.  `backon::ExponentialBuilder::default()` allows
3 retries after the initial attempt. -/

inductive CopyOutcome
  | timeout
  | hardFailure
  | success
deriving DecidableEq

/-- Maximum retry count of `backon::ExponentialBuilder::default()`. -/
def backonDefaultMaxTimes : Nat := 3

/-- Embedding of `closure_copier.retry(backon::ExponentialBuilder::default())`
(src/main.rs:169-176): run attempt `i`; while the attempt times out and
retries remain, back off and try again; any completed attempt (success or
hard failure) ends the loop.  Returns the number of attempts made and the
final outcome. -/
def retryCopy (outcomes : Nat → CopyOutcome) : Nat → Nat → Nat × CopyOutcome
  | i, 0 => (i + 1, outcomes i)
  | i, fuel + 1 =>
    match outcomes i with
    | CopyOutcome.timeout => retryCopy outcomes (i + 1) fuel
    | o => (i + 1, o)

/-- Behavior of an optional stage (src/main.rs:19). -/
inductive Behavior
  | run
  | skip
deriving DecidableEq

inductive DeployEvent
  | copyAttempt
  | connect
  | build
  | preflightSystem
  | preflightClosure
  | testConfig
  | bootStep (e : BootEvent)
deriving DecidableEq

structure DeployEnv where
  copyOutcomes : Nat → CopyOutcome
  connectOk : Bool
  buildOk : Bool
  preflightSystemOk : Bool
  preflightClosureOk : Bool
  testOk : Bool
  bootEnv : BootEnv

/-- Tail of `deploy`: the `built.boot_config().await?` call (src/main.rs:208),
appending the boot protocol's remote calls to the trace. -/
def deployBoot (env : DeployEnv) (t : List DeployEvent) : List DeployEvent × Bool :=
  let b := boot_config env.bootEnv
  (t ++ b.1.map DeployEvent.bootStep, b.2)

/-- Test stage of `deploy` (src/main.rs:200-205): when enabled, run
`test_config` and abort on failure; then fall through to boot activation. -/
def deployTestAndBoot (env : DeployEnv) (do_test : Behavior) (t : List DeployEvent) :
    List DeployEvent × Bool :=
  match do_test with
  | Behavior.run =>
    let t1 := t ++ [DeployEvent.testConfig]
    if env.testOk = false then (t1, false) else deployBoot env t1
  | Behavior.skip => deployBoot env t

/-- Preflight stage of `deploy` (src/main.rs:190-198): when enabled, run
`preflight_check_system` then `preflight_check_closure`, aborting on either
failure; then fall through to the test stage. -/
def deployFromBuild (env : DeployEnv) (do_preflight do_test : Behavior)
    (t : List DeployEvent) : List DeployEvent × Bool :=
  match do_preflight with
  | Behavior.run =>
    let t1 := t ++ [DeployEvent.preflightSystem]
    if env.preflightSystemOk = false then (t1, false)
    else
      let t2 := t1 ++ [DeployEvent.preflightClosure]
      if env.preflightClosureOk = false then (t2, false)
      else deployTestAndBoot env do_test t2
  | Behavior.skip => deployTestAndBoot env do_test t

/-- Embedding of `deploy` (src/main.rs:159-211): copy the closure under the
retry/timeout policy, connect, build, then the optional preflight and test
stages, then boot activation; every failure aborts the remaining stages. -/
def deploy (env : DeployEnv) (do_preflight do_test : Behavior) :
    List DeployEvent × Bool :=
  let c := retryCopy env.copyOutcomes 0 backonDefaultMaxTimes
  let t0 := List.replicate c.1 DeployEvent.copyAttempt
  if c.2 ≠ CopyOutcome.success then (t0, false)
  else
    let t1 := t0 ++ [DeployEvent.connect]
    if env.connectOk = false then (t1, false)
    else
      let t2 := t1 ++ [DeployEvent.build]
      if env.buildOk = false then (t2, false)
      else deployFromBuild env do_preflight do_test t2

/-! ### `main`'s fan-out over destinations (src/main.rs:124-156)

`main` resolves the flake, then awaits
`try_join_all(opts.to.into_iter().map(|d| task::spawn(async move { deploy(..).await })))`.
The futures joined are `JoinHandle`s, whose error type is `JoinError`
(panic/cancellation only); a destination's `deploy` error is the `Ok` value
of its handle.  When no task panics, every handle yields `Ok(deploy result)`
and `main` discards the inner results, returning `Ok(())`. -/

/-- Embedding of `futures::future::try_join_all`: first error wins, otherwise
the list of successes. -/
def tryJoinAll {ε α : Type} : List (Except ε α) → Except ε (List α)
  | [] => Except.ok []
  | r :: rest =>
    match r with
    | Except.error e => Except.error e
    | Except.ok a =>
      match tryJoinAll rest with
      | Except.error e => Except.error e
      | Except.ok as => Except.ok (a :: as)

structure MainEnv where
  flakeOk : Bool
  deployResults : List Bool

/-- Embedding of `main`'s body after argument parsing (src/main.rs:124-156),
for runs in which every spawned task completes without panicking: resolve the
flake (`?`), then `try_join_all` over the join handles — each of which yields
`Ok` of its destination's deploy result — then return success, discarding the
per-destination results.  `true` models exit code 0. -/
def mainRun (env : MainEnv) : Bool :=
  if env.flakeOk = false then false
  else
    match tryJoinAll ((env.deployResults.map fun r => (Except.ok r : Except Unit Bool))) with
    | Except.error _ => false
    | Except.ok _ => true

/-! ### `Nixos::preflight_check_closure` (src/os/nixos.rs:164-187)

Paths are strings; `pathJoin` embeds Rust `Path::join`, which replaces the
base when the joined path is absolute.  The oracle `fileExists` is the result
of `test_file_existence` and `runOk p` the exit success of
`sudo <p>` run remotely.  The returned trace records the existence probes and
remote script executions issued. -/

def pathIsAbsolute (p : String) : Bool :=
  match p.toList with
  | '/' :: _ => true
  | _ => false

/-- Embedding of Rust `Path::join`: an absolute argument replaces the base. -/
def pathJoin (a b : String) : String :=
  if pathIsAbsolute b then b else a ++ "/" ++ b

/-- Well-known self-check name (src/os/nixos.rs:25). -/
def DEFAULT_PREFLIGHT_SCRIPT_NAME : String := "pre-activate-safety-checks"

inductive ClosureEvent
  | existenceProbe (path : String)
  | execScript (path : String)
deriving DecidableEq

structure ClosureEnv where
  fileExists : String → Bool
  runOk : String → Bool

/-- Embedding of `Nixos::preflight_check_closure` (src/os/nixos.rs:164-187):
with no caller-specified script, probe for the well-known default inside the
built artifact and return success when it is absent; otherwise (default
present, or a caller-specified script joined onto the artifact path with no
existence probe) execute the resolved script remotely, failing on non-zero
exit. -/
def preflight_check_closure (env : ClosureEnv) (derivation : String)
    (script : Option String) : List ClosureEvent × Bool :=
  match script with
  | none =>
    let scriptPath := pathJoin derivation DEFAULT_PREFLIGHT_SCRIPT_NAME
    if env.fileExists scriptPath = false then
      ([ClosureEvent.existenceProbe scriptPath], true)
    else
      ([ClosureEvent.existenceProbe scriptPath, ClosureEvent.execScript scriptPath],
       env.runOk scriptPath)
  | some s =>
    let scriptPath := pathJoin derivation s
    ([ClosureEvent.execScript scriptPath], env.runOk scriptPath)

/-! ## Theorems -/

/-- C3: destination-specifier parsing is a total function from strings to
either a `Destination` or an error, and satisfies the spec's examples:
`"nixos://foo"` parses to nixos/"foo"/no config, `"nixos://user@foo/cfg"` to
nixos/"user@foo"/config "cfg", `"nixos:///foo"` (empty host) is an error, and
`"plainhost"` parses as a bare hostname. -/
theorem destination_from_str_total_and_examples :
    (∀ s : String, (∃ d, Destination.from_str s = Except.ok d) ∨
        (∃ e, Destination.from_str s = Except.error e)) ∧
    Destination.from_str "nixos://foo" =
      Except.ok { os_flavor := Flavor.nixos, hostname := "foo", config_name := none } ∧
    Destination.from_str "nixos://user@foo/cfg" =
      Except.ok { os_flavor := Flavor.nixos, hostname := "user@foo",
                  config_name := some "cfg" } ∧
    (∃ e, Destination.from_str "nixos:///foo" = Except.error e) ∧
    Destination.from_str "plainhost" =
      Except.ok { os_flavor := Flavor.nixos, hostname := "plainhost",
                  config_name := none } := by
  refine ⟨fun s => ?_, rfl, rfl, ⟨"Unable to parse nixos:///foo", rfl⟩, rfl⟩
  cases h : Destination.from_str s with
  | error e => exact Or.inr ⟨e, rfl⟩
  | ok d => exact Or.inl ⟨d, rfl⟩

/-- C4 counterexample: a destination specifier with the nixos scheme and an
empty config-name segment does not produce a parse error; it parses
successfully with no config name. -/
theorem empty_config_segment_parses_ok :
    Destination.from_str "nixos://host/" =
      Except.ok { os_flavor := Flavor.nixos, hostname := "host",
                  config_name := none } := rfl

/-- C4 (amended): for every destination-specifier string that parses as a
URL, a non-nixos scheme or a missing host is a parse error, while the nixos
scheme with a host and an empty config-name segment (path `"/"`) parses
successfully with `config_name = none`. -/
theorem destination_parse_scheme_host_empty_config (s : String) (u : UrlParts)
    (hu : urlParse s = some u) :
    (u.scheme ≠ "nixos" → ∃ e, Destination.from_str s = Except.error e) ∧
    (u.host = none → ∃ e, Destination.from_str s = Except.error e) ∧
    (∀ host, u.scheme = "nixos" → u.host = some host → u.path = "/" →
      ∃ d, Destination.from_str s = Except.ok d ∧ d.config_name = none) := by
  refine ⟨fun hs => ?_, fun hh => ?_, fun host hs hh hp => ?_⟩
  · exact ⟨"Unable to parse " ++ s, by simp [Destination.from_str, hu, hs]⟩
  · by_cases hs : u.scheme = "nixos"
    · exact ⟨"Unable to parse " ++ s, by simp [Destination.from_str, hu, hs, hh]⟩
    · exact ⟨"Unable to parse " ++ s, by simp [Destination.from_str, hu, hs]⟩
  · refine ⟨{ os_flavor := Flavor.nixos,
              hostname := if u.username = "" then host else u.username ++ "@" ++ host,
              config_name := none }, ?_, rfl⟩
    simp only [Destination.from_str, hu, hs, if_true, hh, hp]
    rfl

/-- C4 witness for the amended theorem, at `"nixos://host/"`. -/
theorem destination_parse_scheme_host_empty_config_witness :
    ∃ d, Destination.from_str "nixos://host/" = Except.ok d ∧ d.config_name = none :=
  (destination_parse_scheme_host_empty_config "nixos://host/"
    { scheme := "nixos", host := some "host", path := "/", username := "" }
    rfl).2.2 "host" rfl rfl rfl

/-- C5: selecting the structured build record in `build_flake` errors for
every record list whose length is not exactly one, regardless of contents,
and for a singleton list returns that record's output path with the resolved
system name. -/
theorem build_flake_select_exactly_one (results : List NixBuildResult)
    (hostname : String) :
    (results.length ≠ 1 → ∃ e, build_flake_select results hostname = Except.error e) ∧
    (∀ r, results = [r] →
      build_flake_select results hostname = Except.ok (r.outputs.out, hostname)) := by
  constructor
  · intro h
    match results with
    | [] => exact ⟨_, rfl⟩
    | [r] => simp at h
    | a :: b :: rest => exact ⟨_, rfl⟩
  · rintro r rfl
    rfl

/-- C5 witness: the empty record list errors and a concrete singleton list
yields its output path. -/
theorem build_flake_select_exactly_one_witness :
    (∃ e, build_flake_select [] "h" = Except.error e) ∧
    build_flake_select
        [{ drv_path := "d", outputs := { out := "o" } }] "h" =
      Except.ok ("o", "h") :=
  ⟨(build_flake_select_exactly_one [] "h").1 (by decide),
   (build_flake_select_exactly_one
      [{ drv_path := "d", outputs := { out := "o" } }] "h").2
      { drv_path := "d", outputs := { out := "o" } } rfl⟩

/-- C9: `strip_shell_output` yields a value exactly on non-empty stdout (on
empty stdout it indexes out of bounds, modelled as `none`), so
`Nixos::hostname` on a successful remote command with empty output hits the
out-of-bounds access instead of returning a value or an error. -/
theorem strip_shell_output_requires_nonempty :
    (∀ s : List Nat, s ≠ [] → (strip_shell_output s).isSome = true) ∧
    strip_shell_output [] = none ∧
    hostnameRun true [] = none := by
  refine ⟨fun s hs => ?_, rfl, rfl⟩
  cases h : s.getLast? with
  | none => exact absurd (List.getLast?_eq_none_iff.mp h) hs
  | some b =>
    by_cases hb : b = 10 <;> simp [strip_shell_output, h, hb]

/-- C9 witness: a one-byte stdout yields a value. -/
theorem strip_shell_output_requires_nonempty_witness :
    (strip_shell_output [104]).isSome = true :=
  strip_shell_output_requires_nonempty.1 [104] (by decide)

/-- C6: with no caller-specified script and the well-known default absent
from the built artifact, `preflight_check_closure` succeeds having issued
only the existence probe (no remote check execution); when a script does
resolve — the default being present, or a caller-specified path — it is
executed remotely and the stage's success is exactly that execution's
success. -/
theorem preflight_check_closure_noop_or_exec (env : ClosureEnv)
    (derivation : String) :
    (env.fileExists (pathJoin derivation DEFAULT_PREFLIGHT_SCRIPT_NAME) = false →
      preflight_check_closure env derivation none =
        ([ClosureEvent.existenceProbe
            (pathJoin derivation DEFAULT_PREFLIGHT_SCRIPT_NAME)], true)) ∧
    (env.fileExists (pathJoin derivation DEFAULT_PREFLIGHT_SCRIPT_NAME) = true →
      ClosureEvent.execScript (pathJoin derivation DEFAULT_PREFLIGHT_SCRIPT_NAME) ∈
          (preflight_check_closure env derivation none).1 ∧
        (preflight_check_closure env derivation none).2 =
          env.runOk (pathJoin derivation DEFAULT_PREFLIGHT_SCRIPT_NAME)) ∧
    (∀ s, ClosureEvent.execScript (pathJoin derivation s) ∈
        (preflight_check_closure env derivation (some s)).1 ∧
      (preflight_check_closure env derivation (some s)).2 =
        env.runOk (pathJoin derivation s)) := by
  refine ⟨fun h => ?_, fun h => ?_, fun s => ?_⟩
  · simp [preflight_check_closure, h]
  · simp [preflight_check_closure, h]
  · simp [preflight_check_closure]

/-- C6 witness: with the default script absent, the stage is a no-op
success. -/
theorem preflight_check_closure_noop_or_exec_witness :
    preflight_check_closure
        { fileExists := fun _ => false, runOk := fun _ => true }
        "/nix/store/drv" none =
      ([ClosureEvent.existenceProbe
          (pathJoin "/nix/store/drv" DEFAULT_PREFLIGHT_SCRIPT_NAME)], true) :=
  (preflight_check_closure_noop_or_exec
    { fileExists := fun _ => false, runOk := fun _ => true } "/nix/store/drv").1 rfl

/-- C10: a caller-specified script is executed at `derivation.join(script)`
with no existence probe; by path-join semantics an absolute script path is
executed as given (outside the artifact), while a relative one resolves
inside the built artifact. -/
theorem explicit_script_join_semantics (env : ClosureEnv) (derivation s : String) :
    (preflight_check_closure env derivation (some s)).1 =
      [ClosureEvent.execScript (pathJoin derivation s)] ∧
    (∀ p, ClosureEvent.existenceProbe p ∉
      (preflight_check_closure env derivation (some s)).1) ∧
    (pathIsAbsolute s = true → pathJoin derivation s = s) ∧
    (pathIsAbsolute s = false → pathJoin derivation s = derivation ++ "/" ++ s) := by
  refine ⟨rfl, fun p => ?_, fun h => ?_, fun h => ?_⟩
  · simp [preflight_check_closure]
  · simp [pathJoin, h]
  · simp [pathJoin, h]

/-- C10 witness: a relative script resolves inside the artifact and an
absolute one escapes it. -/
theorem explicit_script_join_semantics_witness :
    pathJoin "/nix/store/drv" "checks" = "/nix/store/drv" ++ "/" ++ "checks" ∧
    pathJoin "/nix/store/drv" "/usr/bin/checks" = "/usr/bin/checks" :=
  ⟨(explicit_script_join_semantics
      { fileExists := fun _ => false, runOk := fun _ => true }
      "/nix/store/drv" "checks").2.2.2 rfl,
   (explicit_script_join_semantics
      { fileExists := fun _ => false, runOk := fun _ => true }
      "/nix/store/drv" "/usr/bin/checks").2.2.1 rfl⟩

/-- C1: in `boot_config`, `set_as_current_generation` is called only after
the trial `update_boot_for_config` succeeded, the committing (second)
`update_boot_for_config` is issued only after `set_as_current_generation`
succeeded, and on failure of any step the later steps are not executed. -/
theorem boot_config_step_ordering (env : BootEnv) :
    (BootEvent.setGen ∈ (boot_config env).1 → env.updateBootOk 0 = true) ∧
    (2 ≤ (boot_config env).1.count BootEvent.updateBoot →
      env.updateBootOk 0 = true ∧ env.setGenOk = true) ∧
    (env.updateBootOk 0 = false → (boot_config env).1 = [BootEvent.updateBoot]) ∧
    (env.updateBootOk 0 = true → env.setGenOk = false →
      (boot_config env).1 = [BootEvent.updateBoot, BootEvent.setGen]) := by
  cases h0 : env.updateBootOk 0 <;> cases h1 : env.setGenOk <;>
    simp [boot_config, h0, h1, List.count_cons]

/-- C1 witness: with a successful trial and a failing generation commit, the
protocol stops after the `set_as_current_generation` call. -/
theorem boot_config_step_ordering_witness :
    (boot_config { updateBootOk := fun _ => true, setGenOk := false }).1 =
      [BootEvent.updateBoot, BootEvent.setGen] :=
  (boot_config_step_ordering
    { updateBootOk := fun _ => true, setGenOk := false }).2.2.2 rfl rfl

/-- Helper: when the test stage is enabled and `test_config` fails, the
pipeline aborts with no boot-protocol call in its trace. -/
theorem deploy_test_fail (env : DeployEnv) (dp : Behavior) (h : env.testOk = false) :
    (deploy env dp Behavior.run).2 = false ∧
    ∀ e, DeployEvent.bootStep e ∉ (deploy env dp Behavior.run).1 := by
  unfold deploy deployFromBuild deployTestAndBoot
  rcases dp <;>
    rcases hc : (retryCopy env.copyOutcomes 0 backonDefaultMaxTimes).2 <;>
      simp [h, hc, List.mem_replicate] <;>
        split_ifs <;> simp [List.mem_replicate]

/-- C2: in the per-destination pipeline, a boot-protocol call appears in the
trace only when the test stage was explicitly skipped or `test_config`
succeeded; with the test stage enabled and failing, the pipeline reports
failure and performs no boot-state mutation. -/
theorem deploy_boot_only_after_test (env : DeployEnv) (dp dt : Behavior) :
    ((∃ e, DeployEvent.bootStep e ∈ (deploy env dp dt).1) →
      dt = Behavior.skip ∨ env.testOk = true) ∧
    (dt = Behavior.run → env.testOk = false →
      (deploy env dp dt).2 = false ∧
      ∀ e, DeployEvent.bootStep e ∉ (deploy env dp dt).1) := by
  constructor
  · rintro ⟨e, he⟩
    cases dt with
    | skip => exact Or.inl rfl
    | run =>
      cases ht : env.testOk with
      | true => exact Or.inr rfl
      | false => exact absurd he ((deploy_test_fail env dp ht).2 e)
  · rintro rfl h
    exact deploy_test_fail env dp h

/-- C2 witness: a pipeline whose enabled test stage fails reports failure and
issues no boot-protocol call. -/
theorem deploy_boot_only_after_test_witness :
    (deploy
        { copyOutcomes := fun _ => CopyOutcome.success, connectOk := true,
          buildOk := true, preflightSystemOk := true, preflightClosureOk := true,
          testOk := false,
          bootEnv := { updateBootOk := fun _ => true, setGenOk := true } }
        Behavior.run Behavior.run).2 = false ∧
    ∀ e, DeployEvent.bootStep e ∉
      (deploy
        { copyOutcomes := fun _ => CopyOutcome.success, connectOk := true,
          buildOk := true, preflightSystemOk := true, preflightClosureOk := true,
          testOk := false,
          bootEnv := { updateBootOk := fun _ => true, setGenOk := true } }
        Behavior.run Behavior.run).1 :=
  (deploy_boot_only_after_test
    { copyOutcomes := fun _ => CopyOutcome.success, connectOk := true,
      buildOk := true, preflightSystemOk := true, preflightClosureOk := true,
      testOk := false,
      bootEnv := { updateBootOk := fun _ => true, setGenOk := true } }
    Behavior.run Behavior.run).2 rfl rfl

/-- Helper: the retry loop returns the first non-timeout attempt's outcome,
making `j + 1` attempts when the first `j` attempts time out. -/
theorem retryCopy_stops (outcomes : Nat → CopyOutcome) (j : Nat) :
    ∀ i fuel, j ≤ fuel →
      (∀ k, k < j → outcomes (i + k) = CopyOutcome.timeout) →
      outcomes (i + j) ≠ CopyOutcome.timeout →
      retryCopy outcomes i fuel = (i + j + 1, outcomes (i + j)) := by
  induction j with
  | zero =>
    intro i fuel _ _ hstop
    cases fuel with
    | zero => simp [retryCopy]
    | succ f =>
      unfold retryCopy
      rcases ho : outcomes i with _ | _ | _
      · exact absurd (by simpa using ho) (by simpa using hstop)
      · simp [ho]
      · simp [ho]
  | succ j ih =>
    intro i fuel hj hto hstop
    cases fuel with
    | zero => omega
    | succ f =>
      have h0 : outcomes i = CopyOutcome.timeout := by
        simpa using hto 0 (Nat.succ_pos j)
      unfold retryCopy
      rw [h0]
      have hrec := ih (i + 1) f (by omega)
        (fun k hk => by
          have he : i + 1 + k = i + (k + 1) := by omega
          rw [he]
          exact hto (k + 1) (by omega))
        (by
          have he : i + 1 + j = i + (j + 1) := by omega
          rw [he]
          exact hstop)
      rw [hrec]
      have he : i + 1 + j = i + (j + 1) := by omega
      rw [he]

/-- Helper: when every attempt within the budget times out, the loop makes
`fuel + 1` attempts and surfaces the timeout. -/
theorem retryCopy_all_timeout (outcomes : Nat → CopyOutcome) :
    ∀ fuel i, (∀ k, k ≤ fuel → outcomes (i + k) = CopyOutcome.timeout) →
      retryCopy outcomes i fuel = (i + fuel + 1, CopyOutcome.timeout) := by
  intro fuel
  induction fuel with
  | zero =>
    intro i h
    have h0 : outcomes i = CopyOutcome.timeout := by simpa using h 0 (Nat.le_refl 0)
    simp [retryCopy, h0]
  | succ f ih =>
    intro i h
    have h0 : outcomes i = CopyOutcome.timeout := by simpa using h 0 (Nat.zero_le _)
    unfold retryCopy
    rw [h0]
    have hrec := ih (i + 1) (fun k hk => by
      have he : i + 1 + k = i + (k + 1) := by omega
      rw [he]
      exact h (k + 1) (by omega))
    rw [hrec]
    have he : i + 1 + f = i + (f + 1) := by omega
    rw [he]

/-- C7: under the default backoff budget, the copy retry loop surfaces a
timeout error after exhausting the budget when every attempt times out,
makes exactly one attempt when the first attempt succeeds, and never retries
past a completed attempt: it stops at the first non-timeout outcome (hard
failure or success). -/
theorem copy_retry_policy (outcomes : Nat → CopyOutcome) :
    ((∀ i, i ≤ backonDefaultMaxTimes → outcomes i = CopyOutcome.timeout) →
      retryCopy outcomes 0 backonDefaultMaxTimes =
        (backonDefaultMaxTimes + 1, CopyOutcome.timeout)) ∧
    (outcomes 0 = CopyOutcome.success →
      retryCopy outcomes 0 backonDefaultMaxTimes = (1, CopyOutcome.success)) ∧
    (∀ j, j ≤ backonDefaultMaxTimes →
      (∀ i, i < j → outcomes i = CopyOutcome.timeout) →
      outcomes j ≠ CopyOutcome.timeout →
      retryCopy outcomes 0 backonDefaultMaxTimes = (j + 1, outcomes j)) := by
  refine ⟨fun h => ?_, fun h => ?_, fun j hj hto hstop => ?_⟩
  · have := retryCopy_all_timeout outcomes backonDefaultMaxTimes 0
      (fun k hk => by simpa using h k hk)
    simpa using this
  · have := retryCopy_stops outcomes 0 0 backonDefaultMaxTimes (Nat.zero_le _)
      (fun k hk => absurd hk (by omega)) (by simp [h])
    simpa [h] using this
  · have := retryCopy_stops outcomes j 0 backonDefaultMaxTimes hj
      (fun k hk => by simpa using hto k hk) (by simpa using hstop)
    simpa using this

/-- C7 witness: an immediately successful copy makes exactly one attempt, and
a first-attempt hard failure is returned without retries. -/
theorem copy_retry_policy_witness :
    retryCopy (fun _ => CopyOutcome.success) 0 backonDefaultMaxTimes =
      (1, CopyOutcome.success) ∧
    retryCopy (fun _ => CopyOutcome.hardFailure) 0 backonDefaultMaxTimes =
      (1, CopyOutcome.hardFailure) :=
  ⟨(copy_retry_policy (fun _ => CopyOutcome.success)).2.1 rfl,
   (copy_retry_policy (fun _ => CopyOutcome.hardFailure)).2.2 0 (by decide)
     (fun i hi => absurd hi (by omega)) (by decide)⟩

/-- C8: at the failing input — the flake resolves, a single destination's
pipeline returns an error, no task panics — `main` still reports success
(exit code 0): the `try_join_all` is over join handles, so the destination's
deploy error is an `Ok` payload that `main` discards.  This contradicts the
claim that any destination's pipeline failure makes the overall result an
error. -/
theorem main_ok_despite_pipeline_failure :
    mainRun { flakeOk := true, deployResults := [false] } = true := rfl

end DeployFlake
